import Mathlib

/-
Verification of the go-stock-viewer-back synchronization and scoring
pipeline against its natural-language specification.

The Go source is shallowly embedded as follows:
  - float64 arithmetic is modelled exactly over the rationals;
  - Go `math.Round` (round half away from zero) is modelled by `goRound`;
  - Go strings holding analyst labels are modelled by Lean `String`;
  - byte strings fed to the md5-based identity deriver are modelled as
    `List Nat` of byte values (Go strings are arbitrary byte sequences,
    which Lean `String` cannot represent);
  - `time.Now()` is modelled by a per-record logical clock threaded
    through the synchronization loop;
  - the repository and the external feed are modelled as explicit
    parameters (a lookup function and a list of stream items).
-/

namespace StockViewer

/-- Embedding of `stockviewer.Stock` (types.go): the persisted rating
record, with float64 fields as rationals and timestamps as a logical
clock value. -/
structure Stock where
  id : String
  ticker : String
  company : String
  brokerage : String
  action : String
  ratingFrom : String
  ratingTo : String
  targetFrom : ℚ
  targetTo : ℚ
  recommendScore : ℚ
  createdAt : Nat
  updatedAt : Nat
deriving DecidableEq

/-- Embedding of Go `math.Round`: round half away from zero, returning
the rounded value (an integer) as a rational. -/
def goRound (q : ℚ) : ℚ :=
  if 0 ≤ q then (⌊q + 1/2⌋ : ℤ) else (⌈q - 1/2⌉ : ℤ)

/-- Rounding to two decimal places in the style of the Go source, which
computes `math.Round(x*100)/100`. -/
def round2 (q : ℚ) : ℚ :=
  goRound (q * 100) / 100

/-- Embedding of the `ratingScores` map lookup in
`stocks.calculateRecommendScore`; an unknown label contributes 0. -/
def ratingScoreIngest (r : String) : ℚ :=
  if r = "Buy" then 30
  else if r = "Outperform" then 25
  else if r = "Overweight" then 20
  else if r = "Hold" then 0
  else if r = "Neutral" then -5
  else if r = "Market Perform" then -10
  else if r = "Underperform" then -20
  else if r = "Underweight" then -20
  else if r = "Sell" then -30
  else if r = "Speculative" then 10
  else 0

/-- Embedding of the `actionScores` map lookup in
`stocks.calculateRecommendScore`; an unknown action contributes 0. -/
def actionScoreIngest (a : String) : ℚ :=
  if a = "target raised by" then 15
  else if a = "upgraded by" then 20
  else if a = "initiated by" then 5
  else if a = "target lowered by" then -15
  else if a = "downgraded by" then -20
  else 0

/-- Embedding of `stocks.calculateRecommendScore` (the ingest-time
score): base 50, rating and action deltas, half the percent change of
the price targets when both are positive, clamped to [0,100] and rounded
to two decimals. -/
def calculateRecommendScore (s : Stock) : ℚ :=
  let score : ℚ := 50 + ratingScoreIngest s.ratingTo + actionScoreIngest s.action
  let score : ℚ :=
    if s.targetFrom > 0 ∧ s.targetTo > 0 then
      score + ((s.targetTo - s.targetFrom) / s.targetFrom) * 100 * 0.5
    else score
  let score : ℚ := if score > 100 then 100 else score
  let score : ℚ := if score < 0 then 0 else score
  goRound (score * 100) / 100

/-- Embedding of `recommendation.calculateRatingScore`; an unknown
label yields 40. -/
def calculateRatingScore (r : String) : ℚ :=
  if r = "Buy" then 100
  else if r = "Strong Buy" then 100
  else if r = "Outperform" then 80
  else if r = "Overweight" then 70
  else if r = "Accumulate" then 60
  else if r = "Hold" then 40
  else if r = "Neutral" then 35
  else if r = "Market Perform" then 30
  else if r = "Equal Weight" then 30
  else if r = "Underperform" then 15
  else if r = "Underweight" then 15
  else if r = "Reduce" then 10
  else if r = "Sell" then 0
  else if r = "Speculative" then 50
  else 40

/-- Embedding of `recommendation.calculateActionScore`; an unknown
action yields 50. -/
def calculateActionScore (a : String) : ℚ :=
  if a = "target raised by" then 100
  else if a = "upgraded by" then 100
  else if a = "initiated by" then 60
  else if a = "reiterated by" then 50
  else if a = "target lowered by" then 0
  else if a = "downgraded by" then 0
  else 50

/-- Embedding of `recommendation.calculatePriceTargetScore`: a step
function of the percent change of the price targets, 50 when either
target is non-positive. -/
def calculatePriceTargetScore (f t : ℚ) : ℚ :=
  if f ≤ 0 ∨ t ≤ 0 then 50
  else
    let percentChange : ℚ := ((t - f) / f) * 100
    if percentChange > 50 then 100
    else if percentChange > 20 then 80
    else if percentChange > 10 then 70
    else if percentChange > 0 then 60
    else if percentChange > -10 then 40
    else if percentChange > -20 then 20
    else 0

/-- Embedding of `recommendation.Service.CalculateScore` (the
recommendation-time score): weighted blend of the three contributions,
renormalized via (sum + 100) / 2 and rounded to two decimals. -/
def CalculateScore (s : Stock) : ℚ :=
  let score : ℚ := 0 + calculateRatingScore s.ratingTo * 0.40
    + calculateActionScore s.action * 0.35
    + calculatePriceTargetScore s.targetFrom s.targetTo * 0.25
  let normalizedScore : ℚ := (score + 100) / 2
  goRound (normalizedScore * 100) / 100

/-- Specification-side rating delta for the ingest-time score, written
from the words of the claim (Buy +30, Outperform +25, Overweight +20,
Hold 0, Neutral -5, Market Perform -10, Underperform or Underweight -20,
Sell -30, Speculative +10, unknown +0). -/
def specRatingDelta (r : String) : ℚ :=
  if r = "Buy" then 30
  else if r = "Outperform" then 25
  else if r = "Overweight" then 20
  else if r = "Hold" then 0
  else if r = "Neutral" then -5
  else if r = "Market Perform" then -10
  else if r = "Underperform" ∨ r = "Underweight" then -20
  else if r = "Sell" then -30
  else if r = "Speculative" then 10
  else 0

/-- Specification-side action delta for the ingest-time score, written
from the words of the claim (target-raised +15, upgraded +20, initiated
+5, target-lowered -15, downgraded -20, unknown +0). -/
def specActionDelta (a : String) : ℚ :=
  if a = "target raised by" then 15
  else if a = "upgraded by" then 20
  else if a = "initiated by" then 5
  else if a = "target lowered by" then -15
  else if a = "downgraded by" then -20
  else 0

/-- Clamping to [0,100] as worded by the claim. -/
def clamp01 (q : ℚ) : ℚ :=
  if q < 0 then 0 else if q > 100 then 100 else q

/-- Specification-side ingest-time score, written from the words of the
claim: base 50, plus the rating-to delta, plus the action delta, plus
0.5 times the percent change of the price targets when both are
positive, clamped to [0,100] and rounded to 2 decimal places. -/
def specIngestScore (s : Stock) : ℚ :=
  round2 (clamp01 (50 + specRatingDelta s.ratingTo + specActionDelta s.action +
    (if s.targetFrom > 0 ∧ s.targetTo > 0 then
      0.5 * ((s.targetTo - s.targetFrom) / s.targetFrom * 100)
    else 0)))

/-- Specification-side rating contribution for the recommendation-time
score, written from the words of the claim. -/
def specRecRating (r : String) : ℚ :=
  if r = "Buy" ∨ r = "Strong Buy" then 100
  else if r = "Outperform" then 80
  else if r = "Overweight" then 70
  else if r = "Accumulate" then 60
  else if r = "Hold" then 40
  else if r = "Neutral" then 35
  else if r = "Market Perform" ∨ r = "Equal Weight" then 30
  else if r = "Underperform" ∨ r = "Underweight" then 15
  else if r = "Reduce" then 10
  else if r = "Sell" then 0
  else if r = "Speculative" then 50
  else 40

/-- Specification-side action contribution for the recommendation-time
score, written from the words of the claim. -/
def specRecAction (a : String) : ℚ :=
  if a = "target raised by" ∨ a = "upgraded by" then 100
  else if a = "initiated by" then 60
  else if a = "reiterated by" then 50
  else if a = "target lowered by" ∨ a = "downgraded by" then 0
  else 50

/-- Specification-side price-target step contribution, written from the
words of the claim: 50 when either target is non-positive, otherwise a
step function of the percent change. -/
def specRecTarget (f t : ℚ) : ℚ :=
  if f ≤ 0 ∨ t ≤ 0 then 50
  else
    let pc : ℚ := (t - f) / f * 100
    if pc > 50 then 100
    else if pc > 20 then 80
    else if pc > 10 then 70
    else if pc > 0 then 60
    else if pc > -10 then 40
    else if pc > -20 then 20
    else 0

/-- Specification-side recommendation-time score, written from the
words of the claim: rating contribution times 0.40 plus action
contribution times 0.35 plus price-target contribution times 0.25,
renormalized as (sum + 100) / 2 and rounded to 2 decimals. -/
def specRecScore (s : Stock) : ℚ :=
  round2 ((specRecRating s.ratingTo * 0.40 + specRecAction s.action * 0.35 +
    specRecTarget s.targetFrom s.targetTo * 0.25 + 100) / 2)

/-! ### Identity derivation (karenai client, `generateStockID`)

Byte strings are modelled as `List Nat` of byte values. The md5 digest
below is a direct embedding of the MD5 algorithm used through Go
`crypto/md5`, over `Nat` arithmetic taken modulo 2^32. -/

/-- Word arithmetic modulo 2^32: addition. -/
def add32 (a b : Nat) : Nat := (a + b) % 4294967296

/-- Word arithmetic modulo 2^32: bitwise and. -/
def and32 (a b : Nat) : Nat := Nat.land a b

/-- Word arithmetic modulo 2^32: bitwise or. -/
def or32 (a b : Nat) : Nat := Nat.lor a b

/-- Word arithmetic modulo 2^32: bitwise xor. -/
def xor32 (a b : Nat) : Nat := Nat.xor a b

/-- Word arithmetic modulo 2^32: bitwise complement. -/
def not32 (a : Nat) : Nat := Nat.xor a 4294967295

/-- Word arithmetic modulo 2^32: rotate left by `s` bits. -/
def rotl32 (x s : Nat) : Nat := (x * 2 ^ s + x / 2 ^ (32 - s)) % 4294967296

/-- MD5 sine-derived round constants. -/
def md5K : List Nat :=
  [0xd76aa478, 0xe8c7b756, 0x242070db, 0xc1bdceee,
  0xf57c0faf, 0x4787c62a, 0xa8304613, 0xfd469501,
  0x698098d8, 0x8b44f7af, 0xffff5bb1, 0x895cd7be,
  0x6b901122, 0xfd987193, 0xa679438e, 0x49b40821,
  0xf61e2562, 0xc040b340, 0x265e5a51, 0xe9b6c7aa,
  0xd62f105d, 0x02441453, 0xd8a1e681, 0xe7d3fbc8,
  0x21e1cde6, 0xc33707d6, 0xf4d50d87, 0x455a14ed,
  0xa9e3e905, 0xfcefa3f8, 0x676f02d9, 0x8d2a4c8a,
  0xfffa3942, 0x8771f681, 0x6d9d6122, 0xfde5380c,
  0xa4beea44, 0x4bdecfa9, 0xf6bb4b60, 0xbebfbc70,
  0x289b7ec6, 0xeaa127fa, 0xd4ef3085, 0x04881d05,
  0xd9d4d039, 0xe6db99e5, 0x1fa27cf8, 0xc4ac5665,
  0xf4292244, 0x432aff97, 0xab9423a7, 0xfc93a039,
  0x655b59c3, 0x8f0ccc92, 0xffeff47d, 0x85845dd1,
  0x6fa87e4f, 0xfe2ce6e0, 0xa3014314, 0x4e0811a1,
  0xf7537e82, 0xbd3af235, 0x2ad7d2bb, 0xeb86d391]

/-- MD5 per-round left-rotation amounts. -/
def md5S : List Nat :=
  [7, 12, 17, 22, 7, 12, 17, 22, 7, 12, 17, 22, 7, 12, 17, 22,
   5, 9, 14, 20, 5, 9, 14, 20, 5, 9, 14, 20, 5, 9, 14, 20,
   4, 11, 16, 23, 4, 11, 16, 23, 4, 11, 16, 23, 4, 11, 16, 23,
   6, 10, 15, 21, 6, 10, 15, 21, 6, 10, 15, 21, 6, 10, 15, 21]

/-- MD5 round mixing function, by round index. -/
def md5F (i b c d : Nat) : Nat :=
  if i < 16 then or32 (and32 b c) (and32 (not32 b) d)
  else if i < 32 then or32 (and32 d b) (and32 (not32 d) c)
  else if i < 48 then xor32 b (xor32 c d)
  else xor32 c (or32 b (not32 d))

/-- MD5 message-word index, by round index. -/
def md5G (i : Nat) : Nat :=
  if i < 16 then i
  else if i < 32 then (5 * i + 1) % 16
  else if i < 48 then (3 * i + 5) % 16
  else (7 * i) % 16

/-- Interpretation of a byte list as little-endian 32-bit words. -/
def toWordsLE : List Nat → List Nat
  | a :: b :: c :: d :: rest =>
    (a + 256 * b + 65536 * c + 16777216 * d) :: toWordsLE rest
  | _ => []

/-- One MD5 round applied to the running state. -/
def md5Step (M : List Nat) (st : Nat × Nat × Nat × Nat) (i : Nat) :
    Nat × Nat × Nat × Nat :=
  match st with
  | (a, b, c, d) =>
    let f := add32 (add32 (md5F i b c d) a)
      (add32 (md5K.getD i 0) (M.getD (md5G i) 0))
    (d, add32 b (rotl32 f (md5S.getD i 0)), b, c)

/-- Processing of one 64-byte block. -/
def md5Block (st : Nat × Nat × Nat × Nat) (block : List Nat) :
    Nat × Nat × Nat × Nat :=
  let M := toWordsLE block
  match (List.range 64).foldl (md5Step M) st, st with
  | (a, b, c, d), (a0, b0, c0, d0) =>
    (add32 a a0, add32 b b0, add32 c c0, add32 d d0)

/-- Splitting of a byte list into 64-byte chunks, with explicit fuel to
keep the recursion structural; the fuel is instantiated with the list
length, which bounds the number of chunks. -/
def chunks64Aux : Nat → List Nat → List (List Nat)
  | 0, _ => []
  | _ + 1, [] => []
  | fuel + 1, x :: xs => ((x :: xs).take 64) :: chunks64Aux fuel ((x :: xs).drop 64)

/-- Splitting of a byte list into 64-byte chunks. -/
def chunks64 (l : List Nat) : List (List Nat) := chunks64Aux l.length l

/-- Little-endian encoding of a value as `n` bytes. -/
def bytesLE : Nat → Nat → List Nat
  | 0, _ => []
  | n + 1, x => (x % 256) :: bytesLE n (x / 256)

/-- MD5 padding: a 0x80 byte, zeros to 56 mod 64, and the bit length as
8 little-endian bytes. -/
def md5Pad (msg : List Nat) : List Nat :=
  let l := msg.length
  let padLen := (55 + 64 - l % 64) % 64
  msg ++ 128 :: List.replicate padLen 0 ++ bytesLE 8 (8 * l)

/-- MD5 digest of a byte list, as the 16 digest bytes. -/
def md5 (msg : List Nat) : List Nat :=
  match (chunks64 (md5Pad msg)).foldl md5Block
      (1732584193, 4023233417, 2562383102, 271733878) with
  | (a, b, c, d) => bytesLE 4 a ++ bytesLE 4 b ++ bytesLE 4 c ++ bytesLE 4 d

/-- Lowercase hex digit for a value below 16, as Go `encoding/hex`
produces. -/
def hexDigit (n : Nat) : Nat := if n < 10 then 48 + n else 87 + n

/-- Hex encoding of a byte list, embedding `hex.EncodeToString`. -/
def hexEncode (bs : List Nat) : List Nat :=
  bs.foldr (fun b acc => hexDigit (b / 16) :: hexDigit (b % 16) :: acc) []

/-- Decimal digits of a natural number, least significant first, with
explicit fuel to keep the recursion structural; `n` itself bounds the
number of digits. -/
def digitsAux : Nat → Nat → List Nat
  | 0, _ => []
  | _ + 1, 0 => []
  | fuel + 1, n => n % 10 :: digitsAux fuel (n / 10)

/-- Decimal digits of a natural number, least significant first; the
empty list for 0. -/
def natDigits (n : Nat) : List Nat := digitsAux n n

/-- Decimal byte representation of a natural number, as Go `fmt`
prints it for the integer part of a float. -/
def natDigitsStr (n : Nat) : List Nat :=
  if n = 0 then [48] else ((natDigits n).map (fun d => 48 + d)).reverse

/-- Value of a two-decimal price target in cents, rounding the exact
rational to the nearest cent with ties to even: this models the value
printed by Go `fmt.Sprintf` with the `%.2f` verb for a float64 target
(negative zero formatting is not modelled; price targets in this system
are never negative). -/
def round2cents (q : ℚ) : ℤ :=
  let x : ℚ := q * 100
  let f : ℤ := ⌊x⌋
  if x - f < 1/2 then f
  else if 1/2 < x - f then f + 1
  else if f % 2 = 0 then f else f + 1

/-- Byte representation of a cent value as `%.2f` prints it: optional
minus sign, integer part, a dot, and exactly two decimal digits. -/
def format2f (c : ℤ) : List Nat :=
  let n := c.natAbs
  (if c < 0 then [45] else []) ++
    natDigitsStr (n / 100) ++ [46, 48 + n / 10 % 10, 48 + n % 10]

/-- Embedding of `karenai.StockItem` after numeric coercion: the six
descriptive fields as byte strings, and the two price targets as the
rational values of the parsed floats. -/
structure StockItem where
  ticker : List Nat
  company : List Nat
  brokerage : List Nat
  action : List Nat
  ratingFrom : List Nat
  ratingTo : List Nat
  targetFrom : ℚ
  targetTo : ℚ

/-- Byte sequence hashed by `generateStockID`: the six descriptive
fields and the two targets formatted to two decimals, joined with the
pipe delimiter (byte 124), exactly as the `fmt.Sprintf` format string
of the source produces. -/
def stockIDData (it : StockItem) : List Nat :=
  it.ticker ++ 124 :: it.company ++ 124 :: it.brokerage ++ 124 :: it.action ++
    124 :: it.ratingFrom ++ 124 :: it.ratingTo ++
    124 :: format2f (round2cents it.targetFrom) ++
    124 :: format2f (round2cents it.targetTo)

/-- Embedding of `karenai.generateStockID`: hex encoding of the md5
digest of the joined field data. -/
def generateStockID (it : StockItem) : List Nat :=
  hexEncode (md5 (stockIDData it))

/-! ### Sync coordinator (`stocks.Service.SyncStocks`) -/

/-- Embedding of `stockviewer.StockOrError`: one item of the fetch
stream, either a stock or an inline record-level error. -/
inductive StockOrError where
  | ok (stock : Stock)
  | err
deriving DecidableEq

/-- Outcome of a repository `GetByID` lookup: the three-way
classification into found, the distinguished not-found error, and any
other storage failure. -/
inductive LookupResult where
  | found (stock : Stock)
  | notFound
  | failure
deriving DecidableEq

/-- Per-record body of the `SyncStocks` loop: recompute the score, set
`UpdatedAt` to the current time, look the identity up, on not-found set
`CreatedAt` to the current time and count the record as new, on found
preserve the existing `CreatedAt`, on any other lookup error leave
`CreatedAt` as fetched. Returns the record to batch and whether it was
counted as new. `time.Now()` is modelled by the single per-record clock
value `now`. -/
def processStock (lookup : String → LookupResult) (now : Nat) (stock : Stock) :
    Stock × Bool :=
  let s1 : Stock :=
    { stock with recommendScore := calculateRecommendScore stock, updatedAt := now }
  match lookup stock.id with
  | .notFound => ({ s1 with createdAt := now }, true)
  | .found existing => ({ s1 with createdAt := existing.createdAt }, false)
  | .failure => (s1, false)

/-- State of the batch-collection loop: the pending batch, everything
passed to `SaveBatch` so far, the two counters, and the logical clock. -/
structure LoopState where
  batch : List Stock
  written : List Stock
  totalRecords : Nat
  newRecords : Nat
  clock : Nat

/-- Batch flush threshold of the source. -/
def batchSize : Nat := 100

/-- One iteration of the `SyncStocks` streaming loop: a record-level
fetch error is logged and skipped; a stock is processed, appended to the
batch, counted, and the batch is flushed to `SaveBatch` once it reaches
the size threshold. -/
def syncStep (lookup : String → LookupResult) (st : LoopState)
    (item : StockOrError) : LoopState :=
  match item with
  | .err => st
  | .ok stock =>
    let p := processStock lookup st.clock stock
    let batch2 := st.batch ++ [p.1]
    let st2 : LoopState :=
      { batch := batch2
        written := st.written
        totalRecords := st.totalRecords + 1
        newRecords := st.newRecords + (if p.2 then 1 else 0)
        clock := st.clock + 1 }
    if batchSize ≤ batch2.length then
      { st2 with batch := [], written := st2.written ++ batch2 }
    else st2

/-- Embedding of `stockviewer.SyncStatus`. -/
structure SyncStatus where
  lastSync : Nat
  totalRecords : Nat
  newRecords : Nat
  updatedRecords : Nat
  status : String
deriving DecidableEq

/-- Successful-fetch path of `SyncStocks`: fold the stream through the
loop, flush the final partial batch, and build the summary, with
`UpdatedRecords` derived as total minus new. Returns the summary and
every record passed to `SaveBatch`, in order. -/
def syncStocksRun (lookup : String → LookupResult) (items : List StockOrError)
    (clock0 : Nat) : SyncStatus × List Stock :=
  let final := items.foldl (syncStep lookup) ⟨[], [], 0, 0, clock0⟩
  (⟨final.clock, final.totalRecords, final.newRecords,
    final.totalRecords - final.newRecords, "completed"⟩,
   final.written ++ final.batch)

/-- Result of one `SyncStocks` invocation as seen by the caller. -/
inductive SyncResult where
  | errSyncInProgress
  | fetchError (status : SyncStatus)
  | completed (status : SyncStatus) (written : List Stock)
deriving DecidableEq

/-- Embedding of `stocks.Service.SyncStocks` including the single-flight
guard. The mutex-protected check-and-set of `syncInProg` is atomic in
the source, so one invocation is modelled as a function of the flag
value it observes: if the flag is set the call returns
`ErrSyncInProgress` leaving the flag unchanged; otherwise the run
executes (the fetch either fails to start, `fetch = none`, or yields a
stream of items) and the deferred release clears the flag on every exit
path. The returned `Bool` is the flag value after the invocation
finishes. -/
def SyncStocks (syncInProg : Bool) (fetch : Option (List StockOrError))
    (lookup : String → LookupResult) (clock0 : Nat) : SyncResult × Bool :=
  if syncInProg then (.errSyncInProgress, syncInProg)
  else
    match fetch with
    | none => (.fetchError ⟨0, 0, 0, 0, "error"⟩, false)
    | some items =>
      (.completed (syncStocksRun lookup items clock0).1
        (syncStocksRun lookup items clock0).2, false)

/-! ### Query service pagination (`stocks.Service.GetStocks`) -/

/-- Page selection of `stockviewer.StockFilter`; the descriptive filter
fields are absorbed into the dataset parameter below. -/
structure StockFilter where
  page : Int
  pageSize : Int

/-- Embedding of `stockviewer.PaginatedResponse`. -/
structure PaginatedResponse where
  data : List Stock
  page : Int
  pageSize : Int
  totalItems : Nat
  totalPages : Nat

/-- Embedding of `Storage.GetAll` for a fixed filter: `dataset` stands
for the filtered and sorted rows the store holds, and `applyPagination`
(SQL OFFSET and LIMIT with the same normalization as the service) is
list drop and take. Returns the page and the unpaginated total count. -/
def getAllPaged (dataset : List Stock) (filter : StockFilter) :
    List Stock × Nat :=
  let page := if filter.page < 1 then 1 else filter.page
  let pageSize :=
    if filter.pageSize < 1 ∨ filter.pageSize > 100 then 20 else filter.pageSize
  ((dataset.drop ((page - 1) * pageSize).toNat).take pageSize.toNat,
    dataset.length)

/-- Embedding of `stocks.Service.GetStocks`: normalize the page to at
least 1 and the page size into [1,100] with default 20, query the
repository, and compute total pages as the ceiling of total over page
size (`math.Ceil` on the exact quotient, expressed in natural-number
arithmetic as (total + size - 1) / size). -/
def GetStocks (dataset : List Stock) (filter : StockFilter) :
    PaginatedResponse :=
  let page := if filter.page < 1 then 1 else filter.page
  let pageSize :=
    if filter.pageSize < 1 ∨ filter.pageSize > 100 then 20 else filter.pageSize
  let r := getAllPaged dataset ⟨page, pageSize⟩
  ⟨r.1, page, pageSize, r.2, (r.2 + pageSize.toNat - 1) / pageSize.toNat⟩

/-! ### Recommendation ranker (`recommendation.Service.GetTopRecommendations`) -/

/-- Embedding of `stockviewer.StockRecommendation`. -/
structure StockRecommendation where
  stock : Stock
  score : ℚ
  reason : String
  rank : Nat

/-- Embedding of `recommendation.generateReason`: up to the first three
applicable canned phrases joined with a period and space, or the
generic fallback phrase. -/
def generateReason (stock : Stock) : String :=
  let reasons : List String :=
    (if stock.ratingTo = "Buy" ∨ stock.ratingTo = "Strong Buy" then
      ["Strong buy recommendation from analyst"]
    else if stock.ratingTo = "Outperform" ∨ stock.ratingTo = "Overweight" then
      ["Expected to outperform the market"]
    else if stock.ratingTo = "Hold" ∨ stock.ratingTo = "Neutral" then
      ["Stable performance expected"]
    else if stock.ratingTo = "Sell" ∨ stock.ratingTo = "Underperform" then
      ["Caution advised - underperformance expected"]
    else []) ++
    (if stock.action = "target raised by" then
      ["Price target recently increased"]
    else if stock.action = "upgraded by" then
      ["Recently upgraded by analyst"]
    else if stock.action = "target lowered by" then
      ["Price target recently decreased"]
    else if stock.action = "downgraded by" then
      ["Recently downgraded by analyst"]
    else []) ++
    (if stock.targetFrom > 0 ∧ stock.targetTo > 0 then
      if (stock.targetTo - stock.targetFrom) / stock.targetFrom * 100 > 10 then
        ["Significant upside potential in price target"]
      else if (stock.targetTo - stock.targetFrom) / stock.targetFrom * 100 < -10 then
        ["Notable downside risk in price target"]
      else []
    else [])
  match reasons with
  | [] => "Based on current market analysis"
  | r :: rs => (rs.take 2).foldl (fun acc x => acc ++ ". " ++ x) r

/-- Sorting relation used by the ranker: descending by score. The Go
source sorts with `sort.Slice` and the comparison `Score i > Score j`;
any sort for this relation produces the same non-increasing score order,
with ties in an unspecified order. -/
def recGE (a b : StockRecommendation) : Prop := b.score ≤ a.score

instance : DecidableRel recGE :=
  fun a b => inferInstanceAs (Decidable (b.score ≤ a.score))

instance : IsTotal StockRecommendation recGE :=
  ⟨fun a b => le_total b.score a.score⟩

instance : IsTrans StockRecommendation recGE :=
  ⟨fun _ _ _ h1 h2 => le_trans h2 h1⟩

/-- Rank assignment pass of the ranker: position `i + 1` for the item
at 0-based index `i`, starting from the given first rank. -/
def assignRanks : Nat → List StockRecommendation → List StockRecommendation
  | _, [] => []
  | i, r :: rs => { r with rank := i } :: assignRanks (i + 1) rs

/-- Construction of one recommendation entry of
`GetTopRecommendations`: the stock with its freshly computed score and
justification, rank not yet assigned (the Go zero value). -/
def mkRec (s : Stock) : StockRecommendation :=
  { stock := s, score := CalculateScore s, reason := generateReason s, rank := 0 }

/-- Embedding of `recommendation.Service.GetTopRecommendations`: clamp
the limit, fetch twice the limit of candidates from the repository
(modelled by the `fetch` parameter), re-score and re-justify each, sort
descending by the fresh score, truncate to the limit, and assign
1-based ranks. -/
def GetTopRecommendations (fetch : Nat → List Stock) (limit : Int) :
    List StockRecommendation :=
  let l : Int := if limit < 1 ∨ limit > 100 then 10 else limit
  let candidates := fetch (l * 2).toNat
  let recommendations := candidates.map mkRec
  let sorted := List.insertionSort recGE recommendations
  assignRanks 1 (sorted.take l.toNat)

/-! ### Helper lemmas about the sync loop -/

/-- Identifiers of the stream items that carry a stock, in stream
order. -/
def okIds : List StockOrError → List String
  | [] => []
  | .ok s :: rest => s.id :: okIds rest
  | .err :: rest => okIds rest

theorem processStock_id (lookup : String → LookupResult) (now : Nat)
    (stock : Stock) : ((processStock lookup now stock).1).id = stock.id := by
  unfold processStock
  cases lookup stock.id <;> rfl

theorem syncStep_written_batch (lookup : String → LookupResult)
    (st : LoopState) (stock : Stock) :
    (syncStep lookup st (.ok stock)).written ++ (syncStep lookup st (.ok stock)).batch =
      st.written ++ st.batch ++ [(processStock lookup st.clock stock).1] := by
  simp only [syncStep]
  split <;> simp [List.append_assoc]

theorem syncLoop_written (lookup : String → LookupResult) :
    ∀ (items : List StockOrError) (st : LoopState),
      ((items.foldl (syncStep lookup) st).written ++
        (items.foldl (syncStep lookup) st).batch).map (fun s => s.id) =
      (st.written ++ st.batch).map (fun s => s.id) ++ okIds items := by
  intro items
  induction items with
  | nil => intro st; simp [okIds]
  | cons item rest ih =>
    intro st
    cases item with
    | err => simp only [List.foldl_cons, syncStep, okIds]; exact ih st
    | ok stock =>
      simp only [List.foldl_cons]
      rw [ih, syncStep_written_batch]
      simp [okIds, processStock_id]

theorem syncLoop_counts (lookup : String → LookupResult) :
    ∀ (items : List StockOrError) (st : LoopState),
      st.newRecords ≤ st.totalRecords →
      (items.foldl (syncStep lookup) st).newRecords ≤
        (items.foldl (syncStep lookup) st).totalRecords := by
  intro items
  induction items with
  | nil => intro st h; exact h
  | cons item rest ih =>
    intro st h
    simp only [List.foldl_cons]
    apply ih
    cases item with
    | err => exact h
    | ok stock =>
      simp only [syncStep]
      split <;> simp <;> split <;> omega

/-! ### Claim theorems -/

/-- C1. Single-flight guard: the mutex-protected check-and-set of
`syncInProg` is atomic, so an invocation that observes the flag set
(one racing with the winner) returns `ErrSyncInProgress` at once and
leaves the flag set for the winner, while the invocation that observes
the flag clear never reports `ErrSyncInProgress`, runs to completion,
and leaves the flag released on every exit path (fetch failure or
normal end). -/
theorem syncStocks_single_flight :
    ∀ (fetch : Option (List StockOrError)) (lookup : String → LookupResult)
      (clock0 : Nat),
      SyncStocks true fetch lookup clock0 = (.errSyncInProgress, true) ∧
      (SyncStocks false fetch lookup clock0).2 = false ∧
      (SyncStocks false fetch lookup clock0).1 ≠ .errSyncInProgress ∧
      ∀ items, fetch = some items →
        (SyncStocks false fetch lookup clock0).1 =
          .completed (syncStocksRun lookup items clock0).1
            (syncStocksRun lookup items clock0).2 := by
  intro fetch lookup clock0
  refine ⟨rfl, ?_, ?_, ?_⟩
  · cases fetch <;> rfl
  · cases fetch <;> simp [SyncStocks]
  · intro items h
    subst h
    rfl

/-- Witness for C1 at a concrete input: the hypothesis of the final
conjunct is discharged with a concrete stream. -/
theorem syncStocks_single_flight_witness :
    SyncStocks false (some []) (fun _ => .notFound) 0 =
      (.completed (syncStocksRun (fun _ => .notFound) [] 0).1
        (syncStocksRun (fun _ => .notFound) [] 0).2, false) := by
  have h := syncStocks_single_flight (some []) (fun _ => .notFound) 0
  have h4 := h.2.2.2 [] rfl
  have h2 := h.2.1
  cases hS : SyncStocks false (some []) (fun _ => .notFound) 0 with
  | mk a b =>
    rw [hS] at h4 h2
    simp_all

/-- C8. Timestamp frame on re-ingest, per streamed record: the loop
body sets `UpdatedAt` to the current time, preserves the stored
`CreatedAt` when the identity is found, sets `CreatedAt` to the current
time when the identity is not found (and leaves it as fetched on any
other lookup error), and carries every other field over from the
fetched record with the freshly recomputed ingest-time score. -/
theorem processStock_timestamp_frame :
    ∀ (lookup : String → LookupResult) (now : Nat) (stock : Stock),
      ((processStock lookup now stock).1).updatedAt = now ∧
      ((processStock lookup now stock).1).createdAt =
        (match lookup stock.id with
          | .found existing => existing.createdAt
          | .notFound => now
          | .failure => stock.createdAt) ∧
      ((processStock lookup now stock).1).id = stock.id ∧
      ((processStock lookup now stock).1).ticker = stock.ticker ∧
      ((processStock lookup now stock).1).company = stock.company ∧
      ((processStock lookup now stock).1).brokerage = stock.brokerage ∧
      ((processStock lookup now stock).1).action = stock.action ∧
      ((processStock lookup now stock).1).ratingFrom = stock.ratingFrom ∧
      ((processStock lookup now stock).1).ratingTo = stock.ratingTo ∧
      ((processStock lookup now stock).1).targetFrom = stock.targetFrom ∧
      ((processStock lookup now stock).1).targetTo = stock.targetTo ∧
      ((processStock lookup now stock).1).recommendScore =
        calculateRecommendScore stock := by
  intro lookup now stock
  unfold processStock
  cases lookup stock.id <;> simp

/-- C10. Sync summary invariant: a run whose fetch started successfully
always reports status completed, its new and updated counts sum to the
total, and the new count never exceeds the total (the updated count is
derived as total minus new). -/
theorem syncStatus_invariant :
    ∀ (lookup : String → LookupResult) (items : List StockOrError)
      (clock0 : Nat),
      (syncStocksRun lookup items clock0).1.status = "completed" ∧
      (syncStocksRun lookup items clock0).1.newRecords +
        (syncStocksRun lookup items clock0).1.updatedRecords =
        (syncStocksRun lookup items clock0).1.totalRecords ∧
      (syncStocksRun lookup items clock0).1.newRecords ≤
        (syncStocksRun lookup items clock0).1.totalRecords := by
  intro lookup items clock0
  have h := syncLoop_counts lookup items ⟨[], [], 0, 0, clock0⟩ (by simp)
  refine ⟨rfl, ?_, ?_⟩ <;> simp only [syncStocksRun] <;> omega

/-- C6 (amended). Per-record lookup error handling during sync: a
record whose `GetByID` lookup fails with an error other than not-found
is NOT skipped — it is still appended to the batch and passed to the
batch write (with `CreatedAt` left as fetched and without being counted
as new), and the run continues to completion; in general every stock
item of the stream reaches the write exactly once, in order, whatever
its lookup outcome. -/
theorem syncRun_lookup_failure_still_written :
    ∀ (lookup : String → LookupResult) (items : List StockOrError)
      (clock0 : Nat),
      ((syncStocksRun lookup items clock0).2).map (fun s => s.id) = okIds items ∧
      (syncStocksRun lookup items clock0).1.status = "completed" := by
  intro lookup items clock0
  constructor
  · have h := syncLoop_written lookup items ⟨[], [], 0, 0, clock0⟩
    simpa [syncStocksRun] using h
  · rfl

/-- Stock value used by the concrete counterexample runs. -/
def failStock : Stock :=
  ⟨"id-1", "T", "C", "B", "upgraded by", "", "Buy", 0, 0, 0, 0, 0⟩

/-- C6 counterexample: with a repository whose lookup always fails with
a storage error, the single streamed record is NOT excluded from the
write — the list of records passed to `SaveBatch` contains exactly this
record, refuting the claim that such a record is skipped. -/
theorem syncRun_lookup_failure_not_skipped :
    (syncStocksRun (fun _ => .failure) [.ok failStock] 0).2 ≠ [] ∧
    ((syncStocksRun (fun _ => .failure) [.ok failStock] 0).2).map
      (fun s => s.id) = ["id-1"] := by
  have h2 : ((syncStocksRun (fun _ => .failure) [.ok failStock] 0).2).map
      (fun s => s.id) = ["id-1"] := by decide
  refine ⟨?_, h2⟩
  intro h
  rw [h] at h2
  simp at h2

/-- Stock rows for the concrete pagination scenario. -/
def rowStock (tick : String) : Stock :=
  ⟨tick, tick, "", "", "", "", "", 0, 0, 0, 0, 0⟩

/-- C9. Pagination contract: `GetStocks` normalizes page below 1 to 1
and page size outside [1,100] to 20, reports the unfiltered total,
computes total pages as the ceiling of total over page size, and the
returned page is the corresponding offset-limit window; in particular a
3-row dataset with page size 2 yields 2 total pages and the second page
holds exactly 1 row. -/
theorem getStocks_pagination_contract :
    ∀ (dataset : List Stock) (page pageSize : Int),
      (GetStocks dataset ⟨page, pageSize⟩).page =
        (if page < 1 then 1 else page) ∧
      (GetStocks dataset ⟨page, pageSize⟩).pageSize =
        (if pageSize < 1 ∨ pageSize > 100 then 20 else pageSize) ∧
      (GetStocks dataset ⟨page, pageSize⟩).totalItems = dataset.length ∧
      (GetStocks dataset ⟨page, pageSize⟩).totalPages =
        (dataset.length +
          (if pageSize < 1 ∨ pageSize > 100 then 20 else pageSize).toNat - 1) /
          (if pageSize < 1 ∨ pageSize > 100 then 20 else pageSize).toNat ∧
      (GetStocks dataset ⟨page, pageSize⟩).data =
        (dataset.drop
          (((if page < 1 then 1 else page) - 1) *
            (if pageSize < 1 ∨ pageSize > 100 then 20 else pageSize)).toNat).take
          (if pageSize < 1 ∨ pageSize > 100 then 20 else pageSize).toNat ∧
      (GetStocks [rowStock "A", rowStock "B", rowStock "C"]
        ⟨2, 2⟩).data.length = 1 ∧
      (GetStocks [rowStock "A", rowStock "B", rowStock "C"]
        ⟨1, 2⟩).totalPages = 2 := by
  intro dataset page pageSize
  have hp : (if (if page < 1 then 1 else page) < 1 then 1
      else if page < 1 then 1 else page) = (if page < 1 then 1 else page) := by
    split_ifs <;> omega
  have hps : (if (if pageSize < 1 ∨ pageSize > 100 then 20 else pageSize) < 1 ∨
        (if pageSize < 1 ∨ pageSize > 100 then 20 else pageSize) > 100 then 20
      else if pageSize < 1 ∨ pageSize > 100 then 20 else pageSize) =
      (if pageSize < 1 ∨ pageSize > 100 then 20 else pageSize) := by
    split_ifs <;> omega
  refine ⟨?_, ?_, ?_, ?_, ?_, by decide, by decide⟩ <;>
    simp only [GetStocks, getAllPaged, hp, hps]

set_option maxHeartbeats 2000000 in
theorem ratingIngest_eq (r : String) : ratingScoreIngest r = specRatingDelta r := by
  simp only [ratingScoreIngest, specRatingDelta]
  split_ifs <;> first | rfl | tauto

theorem actionIngest_eq (a : String) : actionScoreIngest a = specActionDelta a :=
  rfl

/-- C3. Ingest-time score: `calculateRecommendScore` computes exactly
the claimed formula — base 50, plus the claimed rating-to delta, plus
the claimed action delta, plus 0.5 times the percent change of the
price targets when both are positive, clamped to [0,100] and rounded to
2 decimal places. -/
theorem calculateRecommendScore_matches_spec :
    ∀ s : Stock, calculateRecommendScore s = specIngestScore s := by
  intro s
  simp only [calculateRecommendScore, specIngestScore, round2, clamp01]
  rw [ratingIngest_eq, actionIngest_eq]
  by_cases hb : s.targetFrom > 0 ∧ s.targetTo > 0
  · simp only [if_pos hb]
    have hbb : 50 + specRatingDelta s.ratingTo + specActionDelta s.action +
        (s.targetTo - s.targetFrom) / s.targetFrom * 100 * 0.5 =
        50 + specRatingDelta s.ratingTo + specActionDelta s.action +
        0.5 * ((s.targetTo - s.targetFrom) / s.targetFrom * 100) := by ring
    rw [hbb]
    generalize (50 + specRatingDelta s.ratingTo + specActionDelta s.action +
      0.5 * ((s.targetTo - s.targetFrom) / s.targetFrom * 100)) = E
    have hcl : (if (if E > 100 then (100:ℚ) else E) < 0 then (0:ℚ)
        else if E > 100 then 100 else E) =
        (if E < 0 then 0 else if E > 100 then 100 else E) := by
      split_ifs <;> linarith
    rw [hcl]
  · simp only [if_neg hb, add_zero]
    generalize (50 + specRatingDelta s.ratingTo + specActionDelta s.action) = E
    have hcl : (if (if E > 100 then (100:ℚ) else E) < 0 then (0:ℚ)
        else if E > 100 then 100 else E) =
        (if E < 0 then 0 else if E > 100 then 100 else E) := by
      split_ifs <;> linarith
    rw [hcl]

theorem recRating_eq (r : String) : calculateRatingScore r = specRecRating r := by
  simp only [calculateRatingScore, specRecRating]
  by_cases h1 : r = "Buy" <;> simp [h1]
  by_cases h2 : r = "Strong Buy" <;> simp [h2]
  by_cases h3 : r = "Outperform" <;> simp [h3]
  by_cases h4 : r = "Overweight" <;> simp [h4]
  by_cases h5 : r = "Accumulate" <;> simp [h5]
  by_cases h6 : r = "Hold" <;> simp [h6]
  by_cases h7 : r = "Neutral" <;> simp [h7]
  by_cases h8 : r = "Market Perform" <;> simp [h8]
  by_cases h9 : r = "Equal Weight" <;> simp [h9]
  by_cases h10 : r = "Underperform" <;> simp [h10]

set_option maxHeartbeats 2000000 in
theorem recAction_eq (a : String) : calculateActionScore a = specRecAction a := by
  simp only [calculateActionScore, specRecAction]
  split_ifs <;> first | rfl | tauto

theorem recTarget_eq (f t : ℚ) :
    calculatePriceTargetScore f t = specRecTarget f t :=
  rfl

/-- C4. Recommendation-time score: `CalculateScore` computes exactly
the claimed weighted blend — rating contribution times 0.40, action
contribution times 0.35, price-target step contribution times 0.25
(with 50 as the neutral value for a non-positive target), renormalized
as (sum + 100) / 2 and rounded to 2 decimals. -/
theorem calculateScore_matches_spec :
    ∀ s : Stock, CalculateScore s = specRecScore s := by
  intro s
  simp only [CalculateScore, specRecScore, round2]
  rw [recRating_eq, recAction_eq, recTarget_eq, zero_add]

theorem iteBound {c : Prop} [Decidable c] {a b lo hi : ℚ}
    (ha : lo ≤ a ∧ a ≤ hi) (hb : lo ≤ b ∧ b ≤ hi) :
    lo ≤ (if c then a else b) ∧ (if c then a else b) ≤ hi := by
  split
  · exact ha
  · exact hb

theorem goRound_div100_mem (q : ℚ) (h0 : 0 ≤ q) (h1 : q ≤ 100) :
    0 ≤ goRound (q * 100) / 100 ∧ goRound (q * 100) / 100 ≤ 100 := by
  have hq : (0:ℚ) ≤ q * 100 := by nlinarith
  unfold goRound
  rw [if_pos hq]
  have hfl : (0:ℤ) ≤ ⌊q * 100 + 1/2⌋ := Int.le_floor.mpr (by push_cast; linarith)
  have hfu : ⌊q * 100 + 1/2⌋ ≤ 10000 := by
    have hm : ⌊q * 100 + 1/2⌋ ≤ ⌊(10000:ℚ) + 1/2⌋ :=
      Int.floor_le_floor (by linarith)
    have h2 : ⌊(10000:ℚ) + 1/2⌋ = 10000 := by norm_num
    omega
  constructor
  · have hc : (0:ℚ) ≤ ((⌊q * 100 + 1/2⌋ : ℤ) : ℚ) := by exact_mod_cast hfl
    linarith
  · have hc : ((⌊q * 100 + 1/2⌋ : ℤ) : ℚ) ≤ 10000 := by exact_mod_cast hfu
    linarith

/-- C5. Score bounds: for every input stock — any rating, action and
target values, including unknown labels and non-positive targets — both
scoring functions return a value in [0,100]. -/
theorem score_bounds :
    ∀ s : Stock,
      0 ≤ calculateRecommendScore s ∧ calculateRecommendScore s ≤ 100 ∧
      0 ≤ CalculateScore s ∧ CalculateScore s ≤ 100 := by
  intro s
  have hcl : ∀ x : ℚ,
      0 ≤ (if (if x > 100 then (100:ℚ) else x) < 0 then 0
        else if x > 100 then 100 else x) ∧
      (if (if x > 100 then (100:ℚ) else x) < 0 then 0
        else if x > 100 then 100 else x) ≤ 100 := by
    intro x
    constructor <;> split_ifs <;> linarith
  have h1 : 0 ≤ calculateRatingScore s.ratingTo ∧
      calculateRatingScore s.ratingTo ≤ 100 := by
    simp only [calculateRatingScore]
    repeat' apply iteBound
    all_goals norm_num
  have h2 : 0 ≤ calculateActionScore s.action ∧
      calculateActionScore s.action ≤ 100 := by
    simp only [calculateActionScore]
    repeat' apply iteBound
    all_goals norm_num
  have h3 : 0 ≤ calculatePriceTargetScore s.targetFrom s.targetTo ∧
      calculatePriceTargetScore s.targetFrom s.targetTo ≤ 100 := by
    simp only [calculatePriceTargetScore]
    repeat' apply iteBound
    all_goals norm_num
  have hsum : 0 ≤ (0 + calculateRatingScore s.ratingTo * 0.40 +
        calculateActionScore s.action * 0.35 +
        calculatePriceTargetScore s.targetFrom s.targetTo * 0.25 + 100) / 2 ∧
      (0 + calculateRatingScore s.ratingTo * 0.40 +
        calculateActionScore s.action * 0.35 +
        calculatePriceTargetScore s.targetFrom s.targetTo * 0.25 + 100) / 2 ≤ 100 := by
    constructor <;> [linarith [h1.1, h2.1, h3.1]; linarith [h1.2, h2.2, h3.2]]
  refine ⟨?_, ?_, ?_, ?_⟩
  · simp only [calculateRecommendScore]
    exact (goRound_div100_mem _ (hcl _).1 (hcl _).2).1
  · simp only [calculateRecommendScore]
    exact (goRound_div100_mem _ (hcl _).1 (hcl _).2).2
  · simp only [CalculateScore]
    exact (goRound_div100_mem _ hsum.1 hsum.2).1
  · simp only [CalculateScore]
    exact (goRound_div100_mem _ hsum.1 hsum.2).2

theorem assignRanks_length :
    ∀ (l : List StockRecommendation) (i : Nat),
      (assignRanks i l).length = l.length := by
  intro l
  induction l with
  | nil => intro i; rfl
  | cons r rs ih => intro i; simp [assignRanks, ih]

theorem assignRanks_map_rank :
    ∀ (l : List StockRecommendation) (i : Nat),
      (assignRanks i l).map (fun r => r.rank) = List.range' i l.length := by
  intro l
  induction l with
  | nil => intro i; rfl
  | cons r rs ih => intro i; simp [assignRanks, ih, List.range'_succ]

theorem assignRanks_map_score :
    ∀ (l : List StockRecommendation) (i : Nat),
      (assignRanks i l).map (fun r => r.score) = l.map (fun r => r.score) := by
  intro l
  induction l with
  | nil => intro i; rfl
  | cons r rs ih => intro i; simp [assignRanks, ih]

/-- C7. Rank contract: with the effective limit n (the requested limit
when in [1,100], otherwise 10), `GetTopRecommendations` returns at most
n items, sorted non-increasing by the freshly computed
recommendation-time score, with ranks exactly 1..len(result) and no
gaps; and the result depends on the repository only through the
single candidate query of size 2 times n. -/
theorem getTopRecommendations_rank_contract :
    ∀ (fetch : Nat → List Stock) (limit : Int),
      (GetTopRecommendations fetch limit).length ≤
        (if limit < 1 ∨ limit > 100 then (10:Int) else limit).toNat ∧
      List.Sorted (fun a b => b ≤ a)
        ((GetTopRecommendations fetch limit).map (fun r => r.score)) ∧
      (GetTopRecommendations fetch limit).map (fun r => r.rank) =
        List.range' 1 (GetTopRecommendations fetch limit).length ∧
      ∀ fetch2 : Nat → List Stock,
        fetch2 ((if limit < 1 ∨ limit > 100 then (10:Int) else limit) * 2).toNat =
          fetch ((if limit < 1 ∨ limit > 100 then (10:Int) else limit) * 2).toNat →
        GetTopRecommendations fetch2 limit = GetTopRecommendations fetch limit := by
  intro fetch limit
  refine ⟨?_, ?_, ?_, ?_⟩
  · simp only [GetTopRecommendations]
    rw [assignRanks_length]
    simp [List.length_take]
  · simp only [GetTopRecommendations]
    rw [assignRanks_map_score]
    have hs := List.sorted_insertionSort recGE
      ((fetch ((if limit < 1 ∨ limit > 100 then (10:Int) else limit) * 2).toNat).map mkRec)
    have ht := hs.sublist (List.take_sublist
      (if limit < 1 ∨ limit > 100 then (10:Int) else limit).toNat
      (List.insertionSort recGE
        ((fetch ((if limit < 1 ∨ limit > 100 then (10:Int) else limit) * 2).toNat).map mkRec)))
    exact ht.map _ (fun _ _ h => h)
  · simp only [GetTopRecommendations]
    rw [assignRanks_map_rank, assignRanks_length]
  · intro fetch2 h
    simp only [GetTopRecommendations]
    rw [h]

/-- Stock row used by the rank-contract witness. -/
def wStock : Stock := ⟨"w", "W", "", "", "", "", "", 0, 0, 0, 0, 0⟩

/-- Witness for C7 at a concrete input: two repositories that agree on
the single query of size 2 yield the same ranked result for limit 1. -/
theorem getTopRecommendations_rank_contract_witness :
    GetTopRecommendations (fun k => if k = 2 then [wStock] else []) 1 =
      GetTopRecommendations (fun _ => [wStock]) 1 :=
  (getTopRecommendations_rank_contract (fun _ => [wStock]) 1).2.2.2
    (fun k => if k = 2 then [wStock] else []) rfl

/-! ### Identity derivation lemmas (C2) -/

/-- Value of a little-endian decimal digit list. -/
def undigits : List Nat → Nat
  | [] => 0
  | d :: ds => d + 10 * undigits ds

theorem undigits_digitsAux :
    ∀ (fuel n : Nat), n ≤ fuel → undigits (digitsAux fuel n) = n := by
  intro fuel
  induction fuel with
  | zero =>
    intro n h
    have hn : n = 0 := by omega
    subst hn
    rfl
  | succ f ih =>
    intro n h
    cases n with
    | zero => rfl
    | succ m =>
      simp only [digitsAux, undigits]
      rw [ih]
      · omega
      · have := Nat.div_lt_self (Nat.succ_pos m) (by norm_num : 1 < 10)
        omega

theorem natDigits_inj {m n : Nat} (h : natDigits m = natDigits n) : m = n := by
  have hm := undigits_digitsAux m m le_rfl
  have hn := undigits_digitsAux n n le_rfl
  unfold natDigits at h
  rw [h, hn] at hm
  exact hm.symm

theorem natDigits_zero_of_eq_single_zero {n : Nat} (h : natDigits n = [0]) :
    n = 0 := by
  have hn := undigits_digitsAux n n le_rfl
  unfold natDigits at h
  rw [h] at hn
  simpa [undigits] using hn.symm

theorem natDigitsStr_inj {m n : Nat} (h : natDigitsStr m = natDigitsStr n) :
    m = n := by
  unfold natDigitsStr at h
  split_ifs at h with hm hn hn
  · omega
  · exfalso
    have h2 : (natDigits n).map (fun d => 48 + d) = [48] := by
      have := congrArg List.reverse h
      simpa using this.symm
    cases hd : natDigits n with
    | nil => rw [hd] at h2; simp at h2
    | cons d ds =>
      rw [hd] at h2
      simp only [List.map_cons, List.cons.injEq] at h2
      have hd0 : d = 0 := by omega
      have hds : ds = [] := by simpa using h2.2
      have hzero : natDigits n = [0] := by rw [hd, hd0, hds]
      exact hn (natDigits_zero_of_eq_single_zero hzero)
  · exfalso
    have h2 : (natDigits m).map (fun d => 48 + d) = [48] := by
      have := congrArg List.reverse h
      simpa using this
    cases hd : natDigits m with
    | nil => rw [hd] at h2; simp at h2
    | cons d ds =>
      rw [hd] at h2
      simp only [List.map_cons, List.cons.injEq] at h2
      have hd0 : d = 0 := by omega
      have hds : ds = [] := by simpa using h2.2
      have hzero : natDigits m = [0] := by rw [hd, hd0, hds]
      exact hm (natDigits_zero_of_eq_single_zero hzero)
  · have h2 := List.reverse_injective h
    have hinj : Function.Injective (fun d : Nat => 48 + d) :=
      fun a b hab => Nat.add_left_cancel hab
    have h3 := List.map_injective_iff.mpr hinj h2
    exact natDigits_inj h3

theorem natDigitsStr_head (n : Nat) :
    ∃ d t, natDigitsStr n = d :: t ∧ 48 ≤ d := by
  unfold natDigitsStr
  split_ifs with h
  · exact ⟨48, [], rfl, le_rfl⟩
  · cases hrev : ((natDigits n).map (fun d => 48 + d)).reverse with
    | nil =>
      exfalso
      have h2 : (natDigits n).map (fun d => 48 + d) = [] := by
        have := congrArg List.reverse hrev
        simpa using this
      have h3 : natDigits n = [] := by simpa using h2
      have hn := undigits_digitsAux n n le_rfl
      unfold natDigits at h3
      rw [h3] at hn
      exact h (by simpa [undigits] using hn.symm)
    | cons d t =>
      refine ⟨d, t, rfl, ?_⟩
      have hd : d ∈ ((natDigits n).map (fun d => 48 + d)).reverse := by
        rw [hrev]; exact List.mem_cons_self d t
      rw [List.mem_reverse] at hd
      obtain ⟨a, _, ha⟩ := List.mem_map.mp hd
      omega

theorem format2f_inj {c1 c2 : ℤ} (h : format2f c1 = format2f c2) : c1 = c2 := by
  unfold format2f at h
  by_cases s1 : c1 < 0 <;> by_cases s2 : c2 < 0
  · simp only [if_pos s1, if_pos s2, List.cons_append, List.nil_append] at h
    simp only [List.cons.injEq, true_and] at h
    have h2 := List.append_inj' h (by rfl)
    have hq := natDigitsStr_inj h2.1
    have hxy := h2.2
    simp only [List.cons.injEq, and_true] at hxy
    have hn : c1.natAbs = c2.natAbs := by omega
    omega
  · exfalso
    simp only [if_pos s1, if_neg s2, List.cons_append, List.nil_append] at h
    obtain ⟨d, t, hdt, hd⟩ := natDigitsStr_head (c2.natAbs / 100)
    rw [hdt] at h
    simp only [List.cons_append, List.cons.injEq] at h
    omega
  · exfalso
    simp only [if_neg s1, if_pos s2, List.cons_append, List.nil_append] at h
    obtain ⟨d, t, hdt, hd⟩ := natDigitsStr_head (c1.natAbs / 100)
    rw [hdt] at h
    simp only [List.cons_append, List.cons.injEq] at h
    omega
  · simp only [if_neg s1, if_neg s2, List.nil_append] at h
    have h2 := List.append_inj' h (by rfl)
    have hq := natDigitsStr_inj h2.1
    have hxy := h2.2
    simp only [List.cons.injEq, and_true] at hxy
    have hn : c1.natAbs = c2.natAbs := by omega
    omega

theorem chop (x : List Nat) (a : Nat) {p q : List Nat}
    (h : x ++ a :: p = x ++ a :: q) : p = q := by
  have h2 := List.append_cancel_left h
  simpa using h2

/-- C2 (amended). Identity derivation: the id is the hex encoding of
the md5 digest of the pipe-delimited concatenation of ticker, company,
brokerage, action, rating_from, rating_to, and the targets formatted to
exactly 2 decimal places; two raw records identical on those fields
(targets compared to 2 decimals) get identical ids; and changing any
one field while fixing the others changes the hashed byte sequence —
hence the id as well except when the digest collides, which the md5
collision exhibited in the counterexample shows can happen. -/
theorem generateStockID_spec :
    (∀ i1 i2 : StockItem,
      i1.ticker = i2.ticker → i1.company = i2.company →
      i1.brokerage = i2.brokerage → i1.action = i2.action →
      i1.ratingFrom = i2.ratingFrom → i1.ratingTo = i2.ratingTo →
      round2cents i1.targetFrom = round2cents i2.targetFrom →
      round2cents i1.targetTo = round2cents i2.targetTo →
      generateStockID i1 = generateStockID i2) ∧
    (∀ i1 i2 : StockItem,
      i1.company = i2.company → i1.brokerage = i2.brokerage →
      i1.action = i2.action → i1.ratingFrom = i2.ratingFrom →
      i1.ratingTo = i2.ratingTo →
      round2cents i1.targetFrom = round2cents i2.targetFrom →
      round2cents i1.targetTo = round2cents i2.targetTo →
      i1.ticker ≠ i2.ticker → stockIDData i1 ≠ stockIDData i2) ∧
    (∀ i1 i2 : StockItem,
      i1.ticker = i2.ticker → i1.brokerage = i2.brokerage →
      i1.action = i2.action → i1.ratingFrom = i2.ratingFrom →
      i1.ratingTo = i2.ratingTo →
      round2cents i1.targetFrom = round2cents i2.targetFrom →
      round2cents i1.targetTo = round2cents i2.targetTo →
      i1.company ≠ i2.company → stockIDData i1 ≠ stockIDData i2) ∧
    (∀ i1 i2 : StockItem,
      i1.ticker = i2.ticker → i1.company = i2.company →
      i1.action = i2.action → i1.ratingFrom = i2.ratingFrom →
      i1.ratingTo = i2.ratingTo →
      round2cents i1.targetFrom = round2cents i2.targetFrom →
      round2cents i1.targetTo = round2cents i2.targetTo →
      i1.brokerage ≠ i2.brokerage → stockIDData i1 ≠ stockIDData i2) ∧
    (∀ i1 i2 : StockItem,
      i1.ticker = i2.ticker → i1.company = i2.company →
      i1.brokerage = i2.brokerage → i1.ratingFrom = i2.ratingFrom →
      i1.ratingTo = i2.ratingTo →
      round2cents i1.targetFrom = round2cents i2.targetFrom →
      round2cents i1.targetTo = round2cents i2.targetTo →
      i1.action ≠ i2.action → stockIDData i1 ≠ stockIDData i2) ∧
    (∀ i1 i2 : StockItem,
      i1.ticker = i2.ticker → i1.company = i2.company →
      i1.brokerage = i2.brokerage → i1.action = i2.action →
      i1.ratingTo = i2.ratingTo →
      round2cents i1.targetFrom = round2cents i2.targetFrom →
      round2cents i1.targetTo = round2cents i2.targetTo →
      i1.ratingFrom ≠ i2.ratingFrom → stockIDData i1 ≠ stockIDData i2) ∧
    (∀ i1 i2 : StockItem,
      i1.ticker = i2.ticker → i1.company = i2.company →
      i1.brokerage = i2.brokerage → i1.action = i2.action →
      i1.ratingFrom = i2.ratingFrom →
      round2cents i1.targetFrom = round2cents i2.targetFrom →
      round2cents i1.targetTo = round2cents i2.targetTo →
      i1.ratingTo ≠ i2.ratingTo → stockIDData i1 ≠ stockIDData i2) ∧
    (∀ i1 i2 : StockItem,
      i1.ticker = i2.ticker → i1.company = i2.company →
      i1.brokerage = i2.brokerage → i1.action = i2.action →
      i1.ratingFrom = i2.ratingFrom → i1.ratingTo = i2.ratingTo →
      round2cents i1.targetTo = round2cents i2.targetTo →
      round2cents i1.targetFrom ≠ round2cents i2.targetFrom →
      stockIDData i1 ≠ stockIDData i2) ∧
    (∀ i1 i2 : StockItem,
      i1.ticker = i2.ticker → i1.company = i2.company →
      i1.brokerage = i2.brokerage → i1.action = i2.action →
      i1.ratingFrom = i2.ratingFrom → i1.ratingTo = i2.ratingTo →
      round2cents i1.targetFrom = round2cents i2.targetFrom →
      round2cents i1.targetTo ≠ round2cents i2.targetTo →
      stockIDData i1 ≠ stockIDData i2) := by
  refine ⟨?_, ?_, ?_, ?_, ?_, ?_, ?_, ?_, ?_⟩
  · intro i1 i2 h1 h2 h3 h4 h5 h6 h7 h8
    have hd : stockIDData i1 = stockIDData i2 := by
      unfold stockIDData
      rw [h1, h2, h3, h4, h5, h6, h7, h8]
    unfold generateStockID
    rw [hd]
  · intro i1 i2 h2 h3 h4 h5 h6 h7 h8 hne h
    apply hne
    unfold stockIDData at h
    rw [h2, h3, h4, h5, h6, h7, h8] at h
    simp only [List.append_assoc, List.cons_append] at h
    exact List.append_cancel_right h
  · intro i1 i2 h1 h3 h4 h5 h6 h7 h8 hne h
    apply hne
    unfold stockIDData at h
    rw [h1, h3, h4, h5, h6, h7, h8] at h
    simp only [List.append_assoc, List.cons_append] at h
    exact List.append_cancel_right (chop i2.ticker 124 h)
  · intro i1 i2 h1 h2 h4 h5 h6 h7 h8 hne h
    apply hne
    unfold stockIDData at h
    rw [h1, h2, h4, h5, h6, h7, h8] at h
    simp only [List.append_assoc, List.cons_append] at h
    exact List.append_cancel_right (chop i2.company 124 (chop i2.ticker 124 h))
  · intro i1 i2 h1 h2 h3 h5 h6 h7 h8 hne h
    apply hne
    unfold stockIDData at h
    rw [h1, h2, h3, h5, h6, h7, h8] at h
    simp only [List.append_assoc, List.cons_append] at h
    exact List.append_cancel_right
      (chop i2.brokerage 124 (chop i2.company 124 (chop i2.ticker 124 h)))
  · intro i1 i2 h1 h2 h3 h4 h6 h7 h8 hne h
    apply hne
    unfold stockIDData at h
    rw [h1, h2, h3, h4, h6, h7, h8] at h
    simp only [List.append_assoc, List.cons_append] at h
    exact List.append_cancel_right (chop i2.action 124
      (chop i2.brokerage 124 (chop i2.company 124 (chop i2.ticker 124 h))))
  · intro i1 i2 h1 h2 h3 h4 h5 h7 h8 hne h
    apply hne
    unfold stockIDData at h
    rw [h1, h2, h3, h4, h5, h7, h8] at h
    simp only [List.append_assoc, List.cons_append] at h
    exact List.append_cancel_right (chop i2.ratingFrom 124 (chop i2.action 124
      (chop i2.brokerage 124 (chop i2.company 124 (chop i2.ticker 124 h)))))
  · intro i1 i2 h1 h2 h3 h4 h5 h6 h8 hne h
    apply hne
    unfold stockIDData at h
    rw [h1, h2, h3, h4, h5, h6, h8] at h
    simp only [List.append_assoc, List.cons_append] at h
    exact format2f_inj (List.append_cancel_right
      (chop i2.ratingTo 124 (chop i2.ratingFrom 124 (chop i2.action 124
        (chop i2.brokerage 124 (chop i2.company 124 (chop i2.ticker 124 h)))))))
  · intro i1 i2 h1 h2 h3 h4 h5 h6 h7 hne h
    apply hne
    unfold stockIDData at h
    rw [h1, h2, h3, h4, h5, h6, h7] at h
    simp only [List.append_assoc, List.cons_append] at h
    exact format2f_inj (chop (format2f (round2cents i2.targetFrom)) 124
      (chop i2.ratingTo 124 (chop i2.ratingFrom 124 (chop i2.action 124
        (chop i2.brokerage 124 (chop i2.company 124 (chop i2.ticker 124 h)))))))

/-- Raw item whose targets round to the same cents as its partner while
differing as rationals. -/
def itemD1 : StockItem := ⟨[65], [66], [67], [68], [69], [70], 1001/1000, 0⟩

/-- Partner of `itemD1` with a different raw target value of identical
two-decimal rounding. -/
def itemD2 : StockItem := ⟨[65], [66], [67], [68], [69], [70], 1002/1000, 0⟩

/-- Witness for C2 at a concrete input: equal ids for two items whose
raw targets differ but agree to two decimals, by the determinism
conjunct of the amended theorem. -/
theorem generateStockID_spec_witness :
    generateStockID itemD1 = generateStockID itemD2 :=
  generateStockID_spec.1 itemD1 itemD2 rfl rfl rfl rfl rfl rfl
    (by norm_num [round2cents, itemD1, itemD2]) rfl

/-- First member of a public MD5 colliding block pair (two 64-byte
blocks), used as a ticker value. -/
def collA : List Nat :=
  [209, 49, 221, 2, 197, 230, 238, 196, 105, 61, 154, 6, 152, 175, 249, 92,
   47, 202, 181, 135, 18, 70, 126, 171, 64, 4, 88, 62, 184, 251, 127, 137,
   85, 173, 52, 6, 9, 244, 179, 2, 131, 228, 136, 131, 37, 113, 65, 90,
   8, 81, 37, 232, 247, 205, 201, 159, 217, 29, 189, 242, 128, 55, 60, 91,
   216, 130, 62, 49, 86, 52, 143, 91, 174, 109, 172, 212, 54, 201, 25, 198,
   221, 83, 226, 180, 135, 218, 3, 253, 2, 57, 99, 6, 210, 72, 205, 160,
   233, 159, 51, 66, 15, 87, 126, 232, 206, 84, 182, 112, 128, 168, 13, 30,
   198, 152, 33, 188, 182, 168, 131, 147, 150, 249, 101, 43, 111, 247, 42, 112]

/-- Second member of the colliding block pair: it differs from `collA`
in six bytes yet has the same md5 digest, and by the iterated structure
of md5 any common suffix preserves the collision. -/
def collB : List Nat :=
  [209, 49, 221, 2, 197, 230, 238, 196, 105, 61, 154, 6, 152, 175, 249, 92,
   47, 202, 181, 7, 18, 70, 126, 171, 64, 4, 88, 62, 184, 251, 127, 137,
   85, 173, 52, 6, 9, 244, 179, 2, 131, 228, 136, 131, 37, 241, 65, 90,
   8, 81, 37, 232, 247, 205, 201, 159, 217, 29, 189, 114, 128, 55, 60, 91,
   216, 130, 62, 49, 86, 52, 143, 91, 174, 109, 172, 212, 54, 201, 25, 198,
   221, 83, 226, 52, 135, 218, 3, 253, 2, 57, 99, 6, 210, 72, 205, 160,
   233, 159, 51, 66, 15, 87, 126, 232, 206, 84, 182, 112, 128, 40, 13, 30,
   198, 152, 33, 188, 182, 168, 131, 147, 150, 249, 101, 171, 111, 247, 42, 112]

theorem format2f_zero : format2f (round2cents 0) = [48, 46, 48, 48] := by
  have h0 : round2cents 0 = 0 := by norm_num [round2cents]
  rw [h0]
  rfl

theorem stockIDData_explicit (it : StockItem)
    (hf : it.targetFrom = 0) (ht : it.targetTo = 0) :
    stockIDData it = it.ticker ++ 124 :: it.company ++ 124 :: it.brokerage ++
      124 :: it.action ++ 124 :: it.ratingFrom ++ 124 :: it.ratingTo ++
      124 :: ([48, 46, 48, 48] : List Nat) ++ 124 :: ([48, 46, 48, 48] : List Nat) := by
  unfold stockIDData
  rw [hf, ht, format2f_zero]

/-- Colliding raw item: the collision block as ticker, fixed bytes in
the remaining fields, absent targets. -/
def itemCollA : StockItem := ⟨collA, [99], [98], [97], [114], [116], 0, 0⟩

/-- Partner of `itemCollA`, identical in every field except the ticker,
which holds the other colliding block. -/
def itemCollB : StockItem := ⟨collB, [99], [98], [97], [114], [116], 0, 0⟩

set_option maxRecDepth 100000 in
/-- C2 counterexample: two raw records that differ in exactly one field
(the ticker) yet receive the SAME derived id, because the hashed byte
sequences form an md5 collision; this refutes the part of the claim
stating that changing any one field changes the id. -/
theorem generateStockID_collision :
    itemCollA.ticker ≠ itemCollB.ticker ∧
    itemCollA.company = itemCollB.company ∧
    itemCollA.brokerage = itemCollB.brokerage ∧
    itemCollA.action = itemCollB.action ∧
    itemCollA.ratingFrom = itemCollB.ratingFrom ∧
    itemCollA.ratingTo = itemCollB.ratingTo ∧
    itemCollA.targetFrom = itemCollB.targetFrom ∧
    itemCollA.targetTo = itemCollB.targetTo ∧
    generateStockID itemCollA = generateStockID itemCollB := by
  refine ⟨by decide, rfl, rfl, rfl, rfl, rfl, rfl, rfl, ?_⟩
  unfold generateStockID
  rw [stockIDData_explicit itemCollA rfl rfl, stockIDData_explicit itemCollB rfl rfl]
  decide

end StockViewer
